import Mathlib

/-!
Verification of the attendance-tracking core of the Att_School application
(`src/app.py`) against its natural-language specification.

The development shallowly embeds the data model and the core operations:
the schedule table and period resolver (`get_current_period_for_class`),
the attendance store and upsert performed by the `teacher_dashboard` POST
handler, the remark update of `staff_update_remark`, the aggregation
queries of `staff_dashboard` and `update_daily_excel`, and the per-class
sheet reuse logic of `update_daily_excel`.

Machine rows become Lean structures; SQL queries become list filters over
the table contents; times of day are minutes since midnight obtained by a
model of `datetime.strptime(_, "%H:%M")`.
-/

namespace AttSchool

/-! ## Schedule store and period resolver (`app.py` lines 160-206) -/

/-- A row of the `period` table: day of week (0 = Monday .. 6 = Sunday),
period number, optional `HH:MM` time strings, optional class scope. -/
structure ScheduleRow where
  dayOfWeek : Nat
  period : Nat
  startTime : Option String
  endTime : Option String
  classId : Option Nat
deriving DecidableEq, Repr

/-- Value of a run of decimal digit characters, as read by `strptime`:
nonempty, at most two digits. -/
def digitsToNat (l : List Char) : Option Nat :=
  if l ≠ [] ∧ l.length ≤ 2 ∧ l.all (·.isDigit) then
    some (l.foldl (fun n c => n * 10 + (c.toNat - 48)) 0)
  else none

/-- Model of `datetime.strptime(tstr, "%H:%M").time()`, returning minutes
since midnight; `none` models the `except` branch of `parse_t`. -/
def parseT (s : String) : Option Nat :=
  match s.data.splitOn ':' with
  | [hs, ms] =>
    match digitsToNat hs, digitsToNat ms with
    | some h, some m => if h ≤ 23 ∧ m ≤ 59 then some (h * 60 + m) else none
    | _, _ => none
  | _ => none

/-- `parse_t(r['start_time']) if r['start_time'] else None`: a SQL NULL or
an empty string yields no time. -/
def rowTime (t : Option String) : Option Nat :=
  match t with
  | none => none
  | some s => if s = "" then none else parseT s

/-- The loop body test of `get_current_period_for_class`:
`st and en and st <= now <= en` (both bounds inclusive). -/
def containsNow (r : ScheduleRow) (now : Nat) : Bool :=
  match rowTime r.startTime, rowTime r.endTime with
  | some st, some en => decide (st ≤ now) && decide (now ≤ en)
  | _, _ => false

/-- Stable insertion of an element into a list sorted by a `Nat` key. -/
def insertByKey (key : α → Nat) (x : α) : List α → List α
  | [] => [x]
  | y :: ys => if key x ≤ key y then x :: y :: ys else y :: insertByKey key x ys

/-- Stable sort by a `Nat` key, modelling SQL `ORDER BY`. -/
def sortByKey (key : α → Nat) : List α → List α
  | [] => []
  | y :: ys => insertByKey key y (sortByKey key ys)

/-- The schedule query of `get_current_period_for_class`: rows of the
given weekday, scoped globally (`class_id IS NULL`) or — when a class is
given — globally or to that class, ordered ascending by period number. -/
def periodQuery (table : List ScheduleRow) (weekday : Nat) (classId : Option Nat) :
    List ScheduleRow :=
  match classId with
  | none =>
    sortByKey ScheduleRow.period
      (table.filter (fun r => r.dayOfWeek == weekday && r.classId == none))
  | some cid =>
    sortByKey ScheduleRow.period
      (table.filter (fun r =>
        r.dayOfWeek == weekday && (r.classId == none || r.classId == some cid)))

/-- The scan loop of `get_current_period_for_class`: first row whose
parsed time range contains `now` wins. -/
def scanRows : List ScheduleRow → Nat → Option Nat
  | [], _ => none
  | r :: rs, now => if containsNow r now then some r.period else scanRows rs now

/-- `get_current_period_for_class`: query the schedule for the weekday and
class scope, scan in order, return the period of the first containing row
(`none` when the scan finds nothing).  The returned row object is dropped;
only the period number is consumed by the claims. -/
def getCurrentPeriodForClass (table : List ScheduleRow) (weekday : Nat)
    (classId : Option Nat) (now : Nat) : Option Nat :=
  scanRows (periodQuery table weekday classId) now

/-! ## Attendance store (`attendance` table, `app.py` lines 281-298) and
the upsert of the `teacher_dashboard` POST handler (lines 1221-1245) -/

/-- A row of the `attendance` table.  `id` is the autoincrement primary
key; `remark` and `notes` are nullable TEXT columns; timestamps are the
ISO strings written by the handlers. -/
structure AttRecord where
  id : Nat
  studentId : Nat
  date : String
  period : Nat
  status : String
  classId : Option Nat
  teacherId : Option Nat
  remark : Option String
  notes : Option String
  createdAt : String
  updatedAt : String
deriving DecidableEq, Repr

/-- The attendance table together with the next autoincrement id. -/
structure AttDB where
  nextId : Nat
  recs : List AttRecord
deriving DecidableEq, Repr

/-- The upsert lookup `WHERE student_id = ? AND date = ? AND period = ?`
(the uniqueness key of the table). -/
def keyMatch (sid : Nat) (date : String) (period : Nat) (r : AttRecord) : Bool :=
  r.studentId == sid && r.date == date && r.period == period

/-- One iteration of the `teacher_dashboard` POST loop for one student:
fetch the existing record by (student, date, period); update it (clearing
the remark on an absent→present transition), or insert a fresh record with
no remark.  In this sequential model the `sqlite3.IntegrityError` fallback
branch is unreachable: the insert runs only when the lookup found no row. -/
def submitOne (cid tid : Nat) (date : String) (period : Nat) (now : String)
    (db : AttDB) (sid : Nat) (status : String) : AttDB :=
  match db.recs.find? (keyMatch sid date period) with
  | some ex =>
    if ex.status == "absent" && status == "present" then
      { db with recs := db.recs.map (fun r =>
          if r.id == ex.id then
            { r with status := status, classId := some cid, teacherId := some tid,
                     remark := none, updatedAt := now }
          else r) }
    else
      { db with recs := db.recs.map (fun r =>
          if r.id == ex.id then
            { r with status := status, classId := some cid, teacherId := some tid,
                     updatedAt := now }
          else r) }
  | none =>
    { nextId := db.nextId + 1,
      recs := db.recs ++
        [{ id := db.nextId, studentId := sid, date := date, period := period,
           status := status, classId := some cid, teacherId := some tid,
           remark := none, notes := none, createdAt := now, updatedAt := now }] }

/-- The status submitted for a student:
`request.form.get(f'status_{student.id}', 'present')`. -/
def stOf (form : Nat → Option String) (sid : Nat) : String :=
  (form sid).getD "present"

/-- The whole POST loop: upsert one row per student of the class, in
order. -/
def submitAttendance (cid tid : Nat) (date : String) (period : Nat)
    (students : List Nat) (form : Nat → Option String) (now : String)
    (db : AttDB) : AttDB :=
  students.foldl (fun acc sid => submitOne cid tid date period now acc sid (stOf form sid)) db

/-- The period the POST handler writes under:
`int(request.form.get('period') or 1)` — an omitted or empty period field
falls back to the constant `1`. -/
def effectivePeriod (formPeriod : Option Nat) : Nat :=
  formPeriod.getD 1

/-- The `teacher_dashboard` POST handler: records are written under
`effectivePeriod` of the submitted form field. -/
def teacherPost (cid tid : Nat) (date : String) (formPeriod : Option Nat)
    (students : List Nat) (form : Nat → Option String) (now : String)
    (db : AttDB) : AttDB :=
  submitAttendance cid tid date (effectivePeriod formPeriod) students form now db

/-- Erase the `updated_at` column, for stating "identical up to
`updated_at`". -/
def eraseUpd (r : AttRecord) : AttRecord :=
  { r with updatedAt := "" }

/-- Well-formedness maintained by the SQLite schema: primary-key ids are
distinct and below the autoincrement counter. -/
def WF (db : AttDB) : Prop :=
  (db.recs.map AttRecord.id).Nodup ∧ ∀ r ∈ db.recs, r.id < db.nextId

/-- The state established by a submission pass for one student: the record
found under the (student, date, period) key carries the submitted status
and the submitting class and teacher. -/
def Persisted (cid tid : Nat) (date : String) (period : Nat) (st : String)
    (db : AttDB) (sid : Nat) : Prop :=
  ∃ r, db.recs.find? (keyMatch sid date period) = some r ∧ r.status = st ∧
    r.classId = some cid ∧ r.teacherId = some tid

/-! ## Remark update (`staff_update_remark`, `app.py` lines 1544-1609) -/

/-- Classified failure reasons of `staff_update_remark` (the route reports
them as flash messages). -/
inductive RemarkError where
  | invalidRemark
  | notFound
  | preconditionFailed
deriving DecidableEq, Repr

/-- `staff_update_remark` after form decoding: validate the remark value
against `['excused', 'still absent', '']`, look the record up by
(student, date, period), refuse when it is not absent, else store the
remark (empty normalizes to NULL) and bump `updated_at`.  The returned
pair is (error, resulting table state). -/
def staffUpdateRemark (sid : Nat) (date : String) (period : Nat)
    (remark : Option String) (now : String) (db : AttDB) :
    Option RemarkError × AttDB :=
  if remark != some "excused" && remark != some "still absent" && remark != some "" then
    (some .invalidRemark, db)
  else
    match db.recs.find? (keyMatch sid date period) with
    | none => (some .notFound, db)
    | some ex =>
      if ex.status != "absent" then (some .preconditionFailed, db)
      else
        (none,
         { db with recs := db.recs.map (fun r =>
             if r.id == ex.id then
               { r with remark := if remark == some "" then none else remark,
                        updatedAt := now }
             else r) })

/-! ## Aggregation queries (`staff_dashboard` lines 1431-1536 and the
totals of `update_daily_excel` lines 1348-1374) -/

/-- `SELECT COUNT(1) ... WHERE date = ? AND class_id = ? AND period = ?
AND status = 'present'`. -/
def presentCnt (db : AttDB) (date : String) (cid : Nat) (p : Nat) : Nat :=
  (db.recs.filter (fun r =>
    r.date == date && r.classId == some cid && r.period == p &&
      r.status == "present")).length

/-- `... AND status = 'absent' AND remark = 'excused'`. -/
def excusedCnt (db : AttDB) (date : String) (cid : Nat) (p : Nat) : Nat :=
  (db.recs.filter (fun r =>
    r.date == date && r.classId == some cid && r.period == p &&
      r.status == "absent" && r.remark == some "excused")).length

/-- `... AND status = 'absent' AND (remark IS NULL OR remark != 'excused')`. -/
def absentCnt (db : AttDB) (date : String) (cid : Nat) (p : Nat) : Nat :=
  (db.recs.filter (fun r =>
    r.date == date && r.classId == some cid && r.period == p &&
      r.status == "absent" &&
      (r.remark == none || r.remark != some "excused"))).length

/-- `SELECT DISTINCT period ... WHERE date = ? AND class_id = ? ORDER BY
period`. -/
def distinctPeriods (db : AttDB) (date : String) (cid : Nat) : List Nat :=
  sortByKey id
    (((db.recs.filter (fun r => r.date == date && r.classId == some cid)).map
        AttRecord.period).eraseDups)

/-- The `period_counts` map of `staff_dashboard`: for each recorded period,
(period, present including excused, absent excluding excused). -/
def periodCounts (db : AttDB) (date : String) (cid : Nat) :
    List (Nat × Nat × Nat) :=
  (distinctPeriods db date cid).map (fun p =>
    (p, presentCnt db date cid p + excusedCnt db date cid p,
        absentCnt db date cid p))

/-- The totals row of `update_daily_excel`: a leading blank cell, then one
`P:<present> A:<absent>` cell per recorded period, with excused absences
added to the present count. -/
def totalsRow (db : AttDB) (date : String) (cid : Nat) : List String :=
  "" :: (distinctPeriods db date cid).map (fun p =>
    "P:" ++ toString (presentCnt db date cid p + excusedCnt db date cid p) ++
      " A:" ++ toString (absentCnt db date cid p))

/-- The count the claim describes as `present_total`: records that are
present, or absent with an excused remark. -/
def claimPresentTotal (db : AttDB) (date : String) (cid : Nat) (p : Nat) : Nat :=
  (db.recs.filter (fun r =>
    r.date == date && r.classId == some cid && r.period == p &&
      (r.status == "present" ||
        (r.status == "absent" && r.remark == some "excused")))).length

/-- The count the claim describes as `absent_total`: absent records whose
remark is not `excused`. -/
def claimAbsentTotal (db : AttDB) (date : String) (cid : Nat) (p : Nat) : Nat :=
  (db.recs.filter (fun r =>
    r.date == date && r.classId == some cid && r.period == p &&
      r.status == "absent" && r.remark != some "excused")).length

/-- The per-student query of `staff_dashboard`:
`SELECT ... WHERE student_id = ? AND date = ? AND class_id = ? ORDER BY
period`. -/
def staffStudentRows (db : AttDB) (cid sid : Nat) (date : String) :
    List AttRecord :=
  sortByKey AttRecord.period
    (db.recs.filter (fun r =>
      r.studentId == sid && r.date == date && r.classId == some cid))

/-- One iteration of the per-student flag loop of `staff_dashboard`.  The
accumulator is (has any record, has a non-excused absence, has an excused
absence). -/
def overallStep (f : Bool × Bool × Bool) (r : AttRecord) : Bool × Bool × Bool :=
  if r.status == "absent" then
    if r.remark == some "excused" then (true, f.2.1, true) else (true, true, f.2.2)
  else (true, f.2.1, f.2.2)

/-- The flags computed for one student for the day. -/
def overallFlags (db : AttDB) (cid sid : Nat) (date : String) :
    Bool × Bool × Bool :=
  (staffStudentRows db cid sid date).foldl overallStep (false, false, false)

/-- The derived per-student daily status of `staff_dashboard`:
`not_recorded` without any record, `absent` on any non-excused absence,
otherwise `present`. -/
def overallStatus (db : AttDB) (cid sid : Nat) (date : String) : String :=
  if !(overallFlags db cid sid date).1 then "not_recorded"
  else if (overallFlags db cid sid date).2.1 then "absent"
  else if (overallFlags db cid sid date).1 then "present" else "not_recorded"

/-- One iteration of the per-class counting loop of `staff_dashboard`:
increment exactly one of (present, absent, not recorded) according to the
student's flags. -/
def tallyStep (db : AttDB) (cid : Nat) (date : String) (t : Nat × Nat × Nat)
    (sid : Nat) : Nat × Nat × Nat :=
  if !(overallFlags db cid sid date).1 then (t.1, t.2.1, t.2.2 + 1)
  else if (overallFlags db cid sid date).2.1 then (t.1, t.2.1 + 1, t.2.2)
  else (t.1 + 1, t.2.1, t.2.2)

/-- The class counters of `staff_dashboard`:
(present_count, absent_count, not_recorded_count). -/
def classTally (db : AttDB) (cid : Nat) (date : String) (students : List Nat) :
    Nat × Nat × Nat :=
  students.foldl (tallyStep db cid date) (0, 0, 0)

/-! ## Sheet identity in `update_daily_excel` (lines 1264-1312) -/

/-- Characters forbidden in an Excel sheet name, as matched by the
`invalid_re` pattern of the code. -/
def invalidChar (c : Char) : Bool :=
  c ∈ [':', '\\', '/', '?', '*', '[', ']']

/-- Python `str.strip` / `str.rstrip` whitespace set. -/
def isPySpace (c : Char) : Bool :=
  c ∈ [' ', '\t', '\n', '\r', '\x0b', '\x0c']

/-- Python `s.rstrip()`. -/
def pyRstrip (l : List Char) : List Char :=
  (l.reverse.dropWhile isPySpace).reverse

/-- Python `s.strip()`. -/
def pyStrip (l : List Char) : List Char :=
  pyRstrip (l.dropWhile isPySpace)

/-- `re.sub(invalid_re, '-', name).strip()[:31]` — the `clean_class_name`
used for matching an existing sheet. -/
def cleanName (name : List Char) : List Char :=
  (pyStrip (name.map (fun c => if invalidChar c then '-' else c))).take 31

/-- `base = re.sub(...).strip()[:31] or 'Sheet'` in `get_safe_sheet_name`. -/
def baseName (name : List Char) : List Char :=
  let c := cleanName name
  if c = [] then "Sheet".data else c

/-- The collision candidate `(base[:31-len(suffix)]).rstrip() + f'_{i}'`. -/
def safeCandidate (base : List Char) (i : Nat) : List Char :=
  let suffix := '_' :: (Nat.repr i).data
  pyRstrip (base.take (31 - suffix.length)) ++ suffix

/-- The `while candidate in wb.sheetnames` loop of `get_safe_sheet_name`,
with fuel: distinct candidates are produced at every step, so
`names.length + 1` steps always suffice. -/
def safeLoop (names : List (List Char)) (base : List Char) :
    Nat → Nat → List Char → List Char
  | 0, _, cand => cand
  | fuel + 1, i, cand =>
    if names.contains cand then safeLoop names base fuel (i + 1) (safeCandidate base i)
    else cand

/-- `get_safe_sheet_name(wb, name)`. -/
def getSafeSheetName (names : List (List Char)) (name : List Char) : List Char :=
  safeLoop names (baseName name) (names.length + 1) 1 (baseName name)

/-- A worksheet: its name and its rows (cells as strings). -/
structure Sheet where
  name : List Char
  rows : List (List String)
deriving DecidableEq, Repr

/-- The per-class body of `update_daily_excel`: find an existing sheet
whose name starts with the sanitized class name and reuse it, else create
a sheet under the safe name; in both cases all existing rows are deleted
and the freshly rendered rows are written.  `render` stands for the rows
produced from the current database state for this class and date. -/
def rebuildClassSheet (className : List Char) (render : List (List String))
    (wb : List Sheet) : List Sheet :=
  match wb.find? (fun s => (cleanName className).isPrefixOf s.name) with
  | some s =>
    wb.map (fun t => if t.name == s.name then { t with rows := render } else t)
  | none =>
    wb ++ [{ name := getSafeSheetName (wb.map Sheet.name) className, rows := render }]

theorem scanRows_eq_find? (l : List ScheduleRow) (now : Nat) :
    scanRows l now = (l.find? (fun r => containsNow r now)).map ScheduleRow.period := by
  induction l with
  | nil => rfl
  | cons r rs ih =>
    by_cases h : containsNow r now
    · simp [scanRows, List.find?, h]
    · simp only [Bool.not_eq_true] at h
      simp [scanRows, List.find?, h, ih]

theorem scanRows_eq_none_iff (l : List ScheduleRow) (now : Nat) :
    scanRows l now = none ↔ ∀ r ∈ l, containsNow r now = false := by
  rw [scanRows_eq_find?]
  simp [List.find?_eq_none]

/-- C6: the period resolver scans the day's matching schedule entries in
ascending period-number order and returns the period of the first entry
whose `[start_time, end_time]` range inclusively contains the time-of-day;
a period 09:00–09:45 resolves at exactly 09:00 and exactly 09:45 but not
at 08:59 or 09:46, and an overlap between periods 1 and 2 is won by the
scan order (period 1 first). -/
theorem C6_period_resolution_boundary :
    (∀ table wd cid now,
      getCurrentPeriodForClass table wd cid now
        = ((periodQuery table wd cid).find? (fun r => containsNow r now)).map
            ScheduleRow.period)
    ∧ getCurrentPeriodForClass [⟨0, 1, some "09:00", some "09:45", none⟩] 0 none
        (9 * 60) = some 1
    ∧ getCurrentPeriodForClass [⟨0, 1, some "09:00", some "09:45", none⟩] 0 none
        (9 * 60 + 45) = some 1
    ∧ getCurrentPeriodForClass [⟨0, 1, some "09:00", some "09:45", none⟩] 0 none
        (8 * 60 + 59) = none
    ∧ getCurrentPeriodForClass [⟨0, 1, some "09:00", some "09:45", none⟩] 0 none
        (9 * 60 + 46) = none
    ∧ getCurrentPeriodForClass
        [⟨0, 2, some "09:00", some "10:00", none⟩,
         ⟨0, 1, some "09:00", some "10:00", none⟩] 0 (some 5) (9 * 60 + 30)
        = some 1 := by
  refine ⟨fun table wd cid now => scanRows_eq_find? _ _, ?_, ?_, ?_, ?_, ?_⟩ <;> decide

/-- C5 counterexample: a schedule entry for the day exists (period 1,
08:00–08:45) but at 09:00 the resolver returns `none`, not the day's first
period — the code has no first-period fallback. -/
theorem C5_counterexample :
    periodQuery [⟨0, 1, some "08:00", some "08:45", none⟩] 0 none ≠ []
    ∧ getCurrentPeriodForClass [⟨0, 1, some "08:00", some "08:45", none⟩] 0 none
        (9 * 60) = none
    ∧ getCurrentPeriodForClass [⟨0, 1, some "08:00", some "08:45", none⟩] 0 none
        (9 * 60) ≠ some 1 := by
  refine ⟨?_, ?_, ?_⟩ <;> decide

/-- C5 amended: `get_current_period_for_class` returns `none` exactly when
no matching schedule entry's parsed time range contains the time-of-day —
in particular also when schedule entries do exist for that day; there is no
fallback to the first period of the day's schedule. -/
theorem C5_no_fallback (table : List ScheduleRow) (wd : Nat) (cid : Option Nat)
    (now : Nat) :
    getCurrentPeriodForClass table wd cid now = none
      ↔ ∀ r ∈ periodQuery table wd cid, containsNow r now = false :=
  scanRows_eq_none_iff _ _

/-! ## Generic list lemmas -/

theorem find?_map_of_pred {α : Type} (l : List α) (p : α → Bool) (f : α → α)
    (h : ∀ x, p (f x) = p x) : (l.map f).find? p = (l.find? p).map f := by
  induction l with
  | nil => rfl
  | cons x xs ih =>
    by_cases hx : p x
    · simp [List.find?_cons, h, hx]
    · simp only [Bool.not_eq_true] at hx
      simp [List.find?_cons, h, hx, ih]

theorem keyMatch_update (sid : Nat) (date : String) (period : Nat) (i : Nat)
    (g : AttRecord → AttRecord)
    (hg : ∀ r, (g r).studentId = r.studentId ∧ (g r).date = r.date ∧
      (g r).period = r.period) (r : AttRecord) :
    keyMatch sid date period (if r.id == i then g r else r)
      = keyMatch sid date period r := by
  by_cases h : r.id == i
  · simp [h, keyMatch, (hg r).1, (hg r).2.1, (hg r).2.2]
  · simp [h]

theorem filter_length_add {α : Type} (p q : α → Bool) (l : List α)
    (h : ∀ x, (p x && q x) = false) :
    (l.filter p).length + (l.filter q).length
      = (l.filter (fun x => p x || q x)).length := by
  induction l with
  | nil => rfl
  | cons x xs ih =>
    by_cases hp : p x
    · have hq : q x = false := by
        have := h x
        rwa [hp, Bool.true_and] at this
      simp [List.filter_cons, hp, hq]
      omega
    · simp only [Bool.not_eq_true] at hp
      by_cases hq : q x
      · simp [List.filter_cons, hp, hq]
        omega
      · simp only [Bool.not_eq_true] at hq
        simp [List.filter_cons, hp, hq, ih]

theorem find?_fst_map {β : Type} (l : List Nat) (g : Nat → β) (p : Nat)
    (hp : p ∈ l) :
    ((l.map (fun q => (q, g q))).find? (fun e => e.1 == p)) = some (p, g p) := by
  induction l with
  | nil => cases hp
  | cons q qs ih =>
    by_cases h : q == p
    · have : q = p := eq_of_beq h
      subst this
      simp [List.find?_cons]
    · have hq : q ≠ p := fun hqp => h (beq_iff_eq.2 hqp)
      have hp' : p ∈ qs := by
        cases hp with
        | head => exact absurd rfl hq
        | tail _ h2 => exact h2
      simp only [List.map_cons, List.find?_cons]
      simp only [Bool.not_eq_true] at h
      simp [h, ih hp']

theorem presentCnt_add_excusedCnt (db : AttDB) (date : String) (cid p : Nat) :
    presentCnt db date cid p + excusedCnt db date cid p
      = claimPresentTotal db date cid p := by
  unfold presentCnt excusedCnt claimPresentTotal
  rw [filter_length_add]
  · congr 1
    apply List.filter_congr
    intro r _
    have tauto : ∀ a b c pp q e : Bool,
        ((a && b && c && pp) || (a && b && c && q && e))
          = (a && b && c && (pp || q && e)) := by decide
    exact tauto _ _ _ _ _ _
  · intro r
    by_cases h : r.status = "present"
    · have : (r.status == "absent") = false := by simp [h]
      simp [this]
    · have : (r.status == "present") = false := by simp [h]
      simp [this]

theorem absentCnt_eq_claim (db : AttDB) (date : String) (cid p : Nat) :
    absentCnt db date cid p = claimAbsentTotal db date cid p := by
  unfold absentCnt claimAbsentTotal
  congr 1
  apply List.filter_congr
  intro r _
  cases hr : r.remark with
  | none => simp
  | some s => simp

/-! ## Claim C1: the aggregate counts -/

/-- C1: for every recorded period, both the staff dashboard's
`period_counts` entry and the report's totals-row cell carry
present_total = count(present) + count(absent, excused) and
absent_total = count(absent, remark not excused). -/
theorem C1_aggregate_counts (db : AttDB) (date : String) (cid p : Nat)
    (hp : p ∈ distinctPeriods db date cid) :
    (periodCounts db date cid).find? (fun e => e.1 == p)
      = some (p, claimPresentTotal db date cid p, claimAbsentTotal db date cid p)
    ∧ totalsRow db date cid
      = "" :: (distinctPeriods db date cid).map (fun q =>
          "P:" ++ toString (claimPresentTotal db date cid q) ++ " A:" ++
            toString (claimAbsentTotal db date cid q)) := by
  constructor
  · unfold periodCounts
    rw [find?_fst_map _
      (fun q => (presentCnt db date cid q + excusedCnt db date cid q,
                 absentCnt db date cid q)) p hp]
    rw [presentCnt_add_excusedCnt, absentCnt_eq_claim]
  · unfold totalsRow
    refine congrArg _ (List.map_congr_left fun q _ => ?_)
    rw [presentCnt_add_excusedCnt, absentCnt_eq_claim]

/-- Witness for C1 at a concrete table: one class with an excused absence
and a plain absence in period 1. -/
theorem C1_aggregate_counts_witness :
    (periodCounts
        ⟨3, [⟨1, 5, "2025-01-06", 1, "absent", some 7, some 9, some "excused",
             none, "t0", "t0"⟩,
             ⟨2, 6, "2025-01-06", 1, "absent", some 7, some 9, none, none,
             "t0", "t0"⟩]⟩ "2025-01-06" 7).find? (fun e => e.1 == 1)
      = some (1,
          claimPresentTotal
            ⟨3, [⟨1, 5, "2025-01-06", 1, "absent", some 7, some 9,
                 some "excused", none, "t0", "t0"⟩,
                 ⟨2, 6, "2025-01-06", 1, "absent", some 7, some 9, none, none,
                 "t0", "t0"⟩]⟩ "2025-01-06" 7 1,
          claimAbsentTotal
            ⟨3, [⟨1, 5, "2025-01-06", 1, "absent", some 7, some 9,
                 some "excused", none, "t0", "t0"⟩,
                 ⟨2, 6, "2025-01-06", 1, "absent", some 7, some 9, none, none,
                 "t0", "t0"⟩]⟩ "2025-01-06" 7 1) :=
  (C1_aggregate_counts
    ⟨3, [⟨1, 5, "2025-01-06", 1, "absent", some 7, some 9, some "excused",
         none, "t0", "t0"⟩,
         ⟨2, 6, "2025-01-06", 1, "absent", some 7, some 9, none, none,
         "t0", "t0"⟩]⟩ "2025-01-06" 7 1 (by decide)).1

/-! ## Claim C3: the remark guard -/

/-- C3: with a valid remark value, `set_remark` on a record whose status is
not `absent` fails with `PreconditionFailed` and leaves the whole table
unchanged; and in every case (success included) no record's status
changes. -/
theorem C3_remark_guard (sid : Nat) (date : String) (period : Nat)
    (remark : Option String) (now : String) (db : AttDB) :
    (∀ ex, (remark = some "excused" ∨ remark = some "still absent" ∨ remark = some "") →
      db.recs.find? (keyMatch sid date period) = some ex →
      ex.status ≠ "absent" →
      staffUpdateRemark sid date period remark now db
        = (some .preconditionFailed, db))
    ∧ (staffUpdateRemark sid date period remark now db).2.recs.map
          (fun r => (r.id, r.status))
        = db.recs.map (fun r => (r.id, r.status)) := by
  constructor
  · intro ex hv hex hst
    have hb : (remark != some "excused" && remark != some "still absent" &&
        remark != some "") = false := by
      rcases hv with h | h | h <;> simp [h]
    have hs : (ex.status != "absent") = true := by
      simp [bne_iff_ne, hst]
    simp [staffUpdateRemark, hb, hex, hs]
  · unfold staffUpdateRemark
    split
    · rfl
    · split
      · rfl
      · rename_i ex heq
        split
        · rfl
        · simp only [List.map_map]
          refine List.map_congr_left (fun r _ => ?_)
          simp only [Function.comp]
          by_cases h : r.id == ex.id <;> simp [h]

/-! ## Claim C4: absent-to-present transition clears the remark -/

/-- C4: when a prior record exists and was `absent`, resubmitting the
student as `present` stores the record with its remark cleared to NULL;
a resubmission whose new status is `absent` stores the record with its
remark untouched.  In both cases only status, class, teacher and
`updated_at` are rewritten. -/
theorem C4_transition_remark (cid tid sid : Nat) (date now status : String)
    (period : Nat) (db : AttDB) (ex : AttRecord)
    (hex : db.recs.find? (keyMatch sid date period) = some ex) :
    (ex.status = "absent" → status = "present" →
      (submitOne cid tid date period now db sid status).recs.find?
          (keyMatch sid date period)
        = some { ex with
                 status := status, classId := some cid, teacherId := some tid,
                 remark := none, updatedAt := now })
    ∧ (status = "absent" →
      (submitOne cid tid date period now db sid status).recs.find?
          (keyMatch sid date period)
        = some { ex with
                 status := status, classId := some cid, teacherId := some tid,
                 updatedAt := now }
      ∧ (AttRecord.remark { ex with
                            status := status, classId := some cid,
                            teacherId := some tid, updatedAt := now })
          = ex.remark) := by
  constructor
  · intro habs hpres
    have hcond : (ex.status == "absent" && status == "present") = true := by
      simp [habs, hpres]
    unfold submitOne
    rw [hex]
    simp only [hcond, if_true]
    rw [find?_map_of_pred _ _ _ (fun r => by
      by_cases h : r.id == ex.id <;> simp [h, keyMatch])]
    rw [hex]
    simp
  · intro habs
    have hcond : (ex.status == "absent" && status == "present") = false := by
      simp [habs]
    unfold submitOne
    rw [hex]
    simp only [hcond, if_false, Bool.false_eq_true]
    constructor
    · rw [find?_map_of_pred _ _ _ (fun r => by
        by_cases h : r.id == ex.id <;> simp [h, keyMatch])]
      rw [hex]
      simp
    · trivial

/-- Witness for C3 at a concrete input: a present record refuses an
`excused` remark and the table is untouched. -/
theorem C3_remark_guard_witness :
    staffUpdateRemark 5 "2025-01-06" 1 (some "excused") "t2"
        ⟨2, [⟨1, 5, "2025-01-06", 1, "present", some 7, some 9, none, none,
             "t0", "t1"⟩]⟩
      = (some .preconditionFailed,
         ⟨2, [⟨1, 5, "2025-01-06", 1, "present", some 7, some 9, none, none,
              "t0", "t1"⟩]⟩) :=
  (C3_remark_guard 5 "2025-01-06" 1 (some "excused") "t2"
    ⟨2, [⟨1, 5, "2025-01-06", 1, "present", some 7, some 9, none, none,
         "t0", "t1"⟩]⟩).1
    ⟨1, 5, "2025-01-06", 1, "present", some 7, some 9, none, none, "t0", "t1"⟩
    (Or.inl rfl) (by decide) (by decide)

/-- Witness for C4 at a concrete input: an (absent, excused) record
resubmitted as present becomes (present, no remark). -/
theorem C4_transition_remark_witness :
    (submitOne 7 9 "2025-01-06" 1 "t2"
        ⟨2, [⟨1, 5, "2025-01-06", 1, "absent", some 7, some 9, some "excused",
             none, "t0", "t1"⟩]⟩ 5 "present").recs.find?
        (keyMatch 5 "2025-01-06" 1)
      = some ⟨1, 5, "2025-01-06", 1, "present", some 7, some 9, none, none,
              "t0", "t2"⟩ :=
  (C4_transition_remark 7 9 5 "2025-01-06" "t2" "present" 1
    ⟨2, [⟨1, 5, "2025-01-06", 1, "absent", some 7, some 9, some "excused",
         none, "t0", "t1"⟩]⟩
    ⟨1, 5, "2025-01-06", 1, "absent", some 7, some 9, some "excused", none,
     "t0", "t1"⟩ (by decide)).1 rfl rfl

/-! ## Per-student daily status (claims C8 and C10) -/

theorem overallStep_fst (f : Bool × Bool × Bool) (r : AttRecord) :
    (overallStep f r).1 = true := by
  unfold overallStep
  split
  · split <;> rfl
  · rfl

theorem overallStep_snd (f : Bool × Bool × Bool) (r : AttRecord) :
    (overallStep f r).2.1
      = (f.2.1 || (r.status == "absent" && r.remark != some "excused")) := by
  unfold overallStep
  by_cases h1 : (r.status == "absent") = true
  · by_cases h2 : (r.remark == some "excused") = true
    · rw [if_pos h1, if_pos h2]
      simp only [bne, h1, h2, Bool.not_true, Bool.true_and, Bool.or_false]
    · simp only [Bool.not_eq_true] at h2
      rw [if_pos h1, if_neg (by rw [h2]; exact Bool.false_ne_true)]
      simp only [bne, h1, h2, Bool.not_false, Bool.true_and, Bool.or_true]
  · simp only [Bool.not_eq_true] at h1
    rw [if_neg (by rw [h1]; exact Bool.false_ne_true)]
    simp only [bne, h1, Bool.false_and, Bool.or_false]

theorem foldl_overallStep_fst_true (l : List AttRecord) (acc : Bool × Bool × Bool)
    (hacc : acc.1 = true) : (l.foldl overallStep acc).1 = true := by
  induction l generalizing acc with
  | nil => exact hacc
  | cons r rs ih => exact ih _ (overallStep_fst acc r)

theorem foldl_overallStep_fst (l : List AttRecord) (acc : Bool × Bool × Bool)
    (hl : l ≠ []) : (l.foldl overallStep acc).1 = true := by
  cases l with
  | nil => exact absurd rfl hl
  | cons r rs =>
    exact foldl_overallStep_fst_true rs _ (overallStep_fst acc r)

theorem foldl_overallStep_snd (l : List AttRecord) (acc : Bool × Bool × Bool) :
    (l.foldl overallStep acc).2.1
      = (acc.2.1 ||
          l.any (fun r => r.status == "absent" && r.remark != some "excused")) := by
  induction l generalizing acc with
  | nil => simp
  | cons r rs ih =>
    simp only [List.foldl_cons, List.any_cons]
    rw [ih, overallStep_snd, Bool.or_assoc]

theorem overallStatus_of_empty (db : AttDB) (cid sid : Nat) (date : String)
    (h : staffStudentRows db cid sid date = []) :
    overallStatus db cid sid date = "not_recorded" := by
  simp [overallStatus, overallFlags, h]

theorem overallStatus_of_absence (db : AttDB) (cid sid : Nat) (date : String)
    (h : ∃ r ∈ staffStudentRows db cid sid date,
        r.status = "absent" ∧ r.remark ≠ some "excused") :
    overallStatus db cid sid date = "absent" := by
  obtain ⟨r, hr, hst, hrem⟩ := h
  have hne : staffStudentRows db cid sid date ≠ [] := by
    intro he
    rw [he] at hr
    cases hr
  have hany : (staffStudentRows db cid sid date).any
      (fun r => r.status == "absent" && r.remark != some "excused") = true := by
    rw [List.any_eq_true]
    exact ⟨r, hr, by simp [hst, bne_iff_ne, hrem]⟩
  unfold overallStatus
  rw [show (overallFlags db cid sid date).1 = true from
    foldl_overallStep_fst _ _ hne]
  rw [show (overallFlags db cid sid date).2.1 = true by
    unfold overallFlags
    rw [foldl_overallStep_snd, hany, Bool.or_true]]
  rfl

theorem overallStatus_of_no_absence (db : AttDB) (cid sid : Nat) (date : String)
    (hne : staffStudentRows db cid sid date ≠ [])
    (h : ∀ r ∈ staffStudentRows db cid sid date,
        r.status = "absent" → r.remark = some "excused") :
    overallStatus db cid sid date = "present" := by
  have hany : (staffStudentRows db cid sid date).any
      (fun r => r.status == "absent" && r.remark != some "excused") = false := by
    rw [List.any_eq_false]
    intro r hr
    intro hcontra
    rw [Bool.and_eq_true, beq_iff_eq, bne_iff_ne] at hcontra
    exact hcontra.2 (h r hr hcontra.1)
  unfold overallStatus
  rw [show (overallFlags db cid sid date).1 = true from
    foldl_overallStep_fst _ _ hne]
  rw [show (overallFlags db cid sid date).2.1 = false by
    unfold overallFlags
    rw [foldl_overallStep_snd, hany, Bool.or_false]]
  rfl

/-! ## Claim C8: derived per-student overall status -/

/-- C8: the derived per-student daily status is `not_recorded` without any
record for the class and date, `absent` as soon as one period's record is
a non-excused absence, and `present` when records exist and every absence
is excused. -/
theorem C8_overall_status (db : AttDB) (cid sid : Nat) (date : String) :
    (staffStudentRows db cid sid date = [] →
        overallStatus db cid sid date = "not_recorded")
    ∧ ((∃ r ∈ staffStudentRows db cid sid date,
          r.status = "absent" ∧ r.remark ≠ some "excused") →
        overallStatus db cid sid date = "absent")
    ∧ (staffStudentRows db cid sid date ≠ [] →
      (∀ r ∈ staffStudentRows db cid sid date,
          r.status = "absent" → r.remark = some "excused") →
        overallStatus db cid sid date = "present") :=
  ⟨overallStatus_of_empty db cid sid date,
   overallStatus_of_absence db cid sid date,
   overallStatus_of_no_absence db cid sid date⟩

/-- Witness for C8 at concrete tables: an empty day, a non-excused
absence, and an excused absence. -/
theorem C8_overall_status_witness :
    overallStatus ⟨1, []⟩ 7 5 "2025-01-06" = "not_recorded"
    ∧ overallStatus
        ⟨2, [⟨1, 5, "2025-01-06", 1, "absent", some 7, some 9, none, none,
             "t0", "t0"⟩]⟩ 7 5 "2025-01-06" = "absent"
    ∧ overallStatus
        ⟨2, [⟨1, 5, "2025-01-06", 1, "absent", some 7, some 9, some "excused",
             none, "t0", "t0"⟩]⟩ 7 5 "2025-01-06" = "present" :=
  ⟨(C8_overall_status ⟨1, []⟩ 7 5 "2025-01-06").1 rfl,
   (C8_overall_status
      ⟨2, [⟨1, 5, "2025-01-06", 1, "absent", some 7, some 9, none, none,
           "t0", "t0"⟩]⟩ 7 5 "2025-01-06").2.1
     ⟨⟨1, 5, "2025-01-06", 1, "absent", some 7, some 9, none, none,
       "t0", "t0"⟩, by decide, rfl, by decide⟩,
   (C8_overall_status
      ⟨2, [⟨1, 5, "2025-01-06", 1, "absent", some 7, some 9, some "excused",
           none, "t0", "t0"⟩]⟩ 7 5 "2025-01-06").2.2 (by decide)
     (by decide)⟩

/-! ## Claim C10: an all-excused student counts as present -/

theorem classTally_eq_filter (db : AttDB) (cid : Nat) (date : String)
    (students : List Nat) (t : Nat × Nat × Nat) :
    students.foldl (tallyStep db cid date) t
      = (t.1 + (students.filter
            (fun s => overallStatus db cid s date == "present")).length,
         t.2.1 + (students.filter
            (fun s => overallStatus db cid s date == "absent")).length,
         t.2.2 + (students.filter
            (fun s => overallStatus db cid s date == "not_recorded")).length) := by
  induction students generalizing t with
  | nil => simp
  | cons s rest ih =>
    simp only [List.foldl_cons, List.filter_cons]
    by_cases h1 : (overallFlags db cid s date).1
    · by_cases h2 : (overallFlags db cid s date).2.1
      · have hov : overallStatus db cid s date = "absent" := by
          unfold overallStatus
          rw [h1, h2]
          rfl
        have hstep : tallyStep db cid date t s = (t.1, t.2.1 + 1, t.2.2) := by
          unfold tallyStep
          rw [h1, h2]
          rfl
        rw [hstep, ih, hov]
        simp
        omega
      · have hov : overallStatus db cid s date = "present" := by
          unfold overallStatus
          rw [h1]
          simp only [Bool.not_eq_true] at h2
          rw [h2]
          rfl
        have hstep : tallyStep db cid date t s = (t.1 + 1, t.2.1, t.2.2) := by
          unfold tallyStep
          rw [h1]
          simp only [Bool.not_eq_true] at h2
          rw [h2]
          rfl
        rw [hstep, ih, hov]
        simp
        omega
    · simp only [Bool.not_eq_true] at h1
      have hov : overallStatus db cid s date = "not_recorded" := by
        unfold overallStatus
        rw [h1]
        rfl
      have hstep : tallyStep db cid date t s = (t.1, t.2.1, t.2.2 + 1) := by
        unfold tallyStep
        rw [h1]
        rfl
      rw [hstep, ih, hov]
      simp
      omega

/-- C10: a student with at least one record for the day all of whose
absences carry an excused remark (even with no `present` record at all) is
classified `present`, contributes to the class's present counter, and is
counted neither as absent nor as not recorded. -/
theorem C10_all_excused_is_present (db : AttDB) (cid sid : Nat) (date : String)
    (students : List Nat) (hmem : sid ∈ students)
    (hne : staffStudentRows db cid sid date ≠ [])
    (hexc : ∀ r ∈ staffStudentRows db cid sid date,
        r.status = "absent" → r.remark = some "excused") :
    overallStatus db cid sid date = "present"
    ∧ 0 < (classTally db cid date students).1
    ∧ overallStatus db cid sid date ≠ "absent"
    ∧ overallStatus db cid sid date ≠ "not_recorded" := by
  have hov := overallStatus_of_no_absence db cid sid date hne hexc
  refine ⟨hov, ?_, by rw [hov]; decide, by rw [hov]; decide⟩
  unfold classTally
  rw [classTally_eq_filter]
  have : sid ∈ students.filter (fun s => overallStatus db cid s date == "present") := by
    rw [List.mem_filter]
    exact ⟨hmem, by rw [hov]; rfl⟩
  have hpos := List.length_pos.2 (List.ne_nil_of_mem this)
  simpa using hpos

/-- Witness for C10: one student whose only record is an excused absence is
counted present in a one-student class. -/
theorem C10_all_excused_is_present_witness :
    overallStatus
        ⟨2, [⟨1, 5, "2025-01-06", 1, "absent", some 7, some 9, some "excused",
             none, "t0", "t0"⟩]⟩ 7 5 "2025-01-06" = "present"
    ∧ 0 < (classTally
        ⟨2, [⟨1, 5, "2025-01-06", 1, "absent", some 7, some 9, some "excused",
             none, "t0", "t0"⟩]⟩ 7 "2025-01-06" [5]).1 :=
  ⟨(C10_all_excused_is_present
      ⟨2, [⟨1, 5, "2025-01-06", 1, "absent", some 7, some 9, some "excused",
           none, "t0", "t0"⟩]⟩ 7 5 "2025-01-06" [5] (by decide) (by decide)
      (by decide)).1,
   (C10_all_excused_is_present
      ⟨2, [⟨1, 5, "2025-01-06", 1, "absent", some 7, some 9, some "excused",
           none, "t0", "t0"⟩]⟩ 7 5 "2025-01-06" [5] (by decide) (by decide)
      (by decide)).2.1⟩

/-! ## Claim C7: sheet identity stability of the report builder -/

theorem isPrefixOf_refl (l : List Char) : l.isPrefixOf l = true := by
  induction l with
  | nil => rfl
  | cons c cs ih => simp [List.isPrefixOf, ih]

theorem isPrefixOf_nil (l : List Char) : ([] : List Char).isPrefixOf l = true := by
  cases l <;> rfl

theorem overwrite_name (nm : List Char) (render : List (List String)) (t : Sheet) :
    (if t.name == nm then { t with rows := render } else t).name = t.name := by
  split <;> rfl

theorem find?_overwrite (wb : List Sheet) (clean nm : List Char)
    (render : List (List String)) :
    ((wb.map (fun t => if t.name == nm then { t with rows := render } else t)).find?
        (fun t => clean.isPrefixOf t.name))
      = (wb.find? (fun t => clean.isPrefixOf t.name)).map
          (fun t => if t.name == nm then { t with rows := render } else t) :=
  find?_map_of_pred wb _ _ (fun t => by rw [overwrite_name])

theorem wb_nil_of_clean_nil (wb : List Sheet) (clean : List Char)
    (hc : clean = [])
    (hnone : wb.find? (fun t => clean.isPrefixOf t.name) = none) : wb = [] := by
  cases wb with
  | nil => rfl
  | cons s ss =>
    rw [List.find?_eq_none] at hnone
    have := hnone s (List.mem_cons_self s ss)
    rw [hc, isPrefixOf_nil] at this
    exact absurd rfl this

theorem safeLoop_succ (names : List (List Char)) (base cand : List Char)
    (fuel i : Nat) :
    safeLoop names base (fuel + 1) i cand
      = if names.contains cand then
          safeLoop names base fuel (i + 1) (safeCandidate base i)
        else cand := rfl

theorem safeLoop_of_not_contains (names : List (List Char))
    (base cand : List Char) (fuel i : Nat) (h : names.contains cand = false) :
    safeLoop names base (fuel + 1) i cand = cand := by
  rw [safeLoop_succ, h]
  simp

theorem getSafeSheetName_no_match (wb : List Sheet) (className : List Char)
    (hnone : wb.find? (fun t => (cleanName className).isPrefixOf t.name) = none) :
    getSafeSheetName (wb.map Sheet.name) className = baseName className
    ∧ (cleanName className).isPrefixOf (baseName className) = true := by
  by_cases hc : cleanName className = []
  · have hwb : wb = [] := wb_nil_of_clean_nil wb _ hc hnone
    subst hwb
    refine ⟨rfl, ?_⟩
    rw [hc, isPrefixOf_nil]
  · have hbase : baseName className = cleanName className := by
      unfold baseName
      rw [if_neg hc]
    have hmem : (wb.map Sheet.name).contains (baseName className) = false := by
      by_contra hcon
      rw [Bool.not_eq_false, List.elem_iff, List.mem_map] at hcon
      obtain ⟨s, hs, hname⟩ := hcon
      rw [List.find?_eq_none] at hnone
      have := hnone s hs
      rw [hname, hbase, isPrefixOf_refl] at this
      exact absurd rfl this
    refine ⟨?_, by rw [hbase]; exact isPrefixOf_refl _⟩
    unfold getSafeSheetName
    exact safeLoop_of_not_contains _ _ _ _ _ hmem

theorem rebuild_of_find_some (className : List Char)
    (render : List (List String)) (wb : List Sheet) (s : Sheet)
    (h : wb.find? (fun t => (cleanName className).isPrefixOf t.name) = some s) :
    rebuildClassSheet className render wb
      = wb.map (fun t => if t.name == s.name then { t with rows := render } else t) := by
  unfold rebuildClassSheet
  rw [h]

theorem rebuild_of_find_none (className : List Char)
    (render : List (List String)) (wb : List Sheet)
    (h : wb.find? (fun t => (cleanName className).isPrefixOf t.name) = none) :
    rebuildClassSheet className render wb
      = wb ++ [⟨getSafeSheetName (wb.map Sheet.name) className, render⟩] := by
  unfold rebuildClassSheet
  rw [h]

theorem rebuild_find (className : List Char) (render : List (List String))
    (wb : List Sheet) :
    ∃ s, (rebuildClassSheet className render wb).find?
        (fun t => (cleanName className).isPrefixOf t.name) = some s
      ∧ s.rows = render := by
  cases hw : wb.find? (fun t => (cleanName className).isPrefixOf t.name) with
  | some s =>
    refine ⟨{ s with rows := render }, ?_, rfl⟩
    rw [rebuild_of_find_some className render wb s hw, find?_overwrite, hw]
    simp
  | none =>
    refine ⟨⟨getSafeSheetName (wb.map Sheet.name) className, render⟩, ?_, rfl⟩
    rw [rebuild_of_find_none className render wb hw, List.find?_append, hw,
      Option.none_or]
    obtain ⟨hname, hpref⟩ := getSafeSheetName_no_match wb className hw
    rw [List.find?_cons, hname]
    simp [hpref]

theorem no_sheet_named_base (wb : List Sheet) (className : List Char)
    (hnone : wb.find? (fun t => (cleanName className).isPrefixOf t.name) = none)
    (t : Sheet) (ht : t ∈ wb) :
    (t.name == getSafeSheetName (wb.map Sheet.name) className) = false := by
  obtain ⟨hname, _⟩ := getSafeSheetName_no_match wb className hnone
  rw [hname]
  by_cases hc : cleanName className = []
  · have := wb_nil_of_clean_nil wb _ hc hnone
    subst this
    cases ht
  · have hbase : baseName className = cleanName className := by
      unfold baseName
      rw [if_neg hc]
    rw [List.find?_eq_none] at hnone
    have hfalse := hnone t ht
    by_contra hcon
    rw [Bool.not_eq_false, beq_iff_eq, hbase] at hcon
    rw [hcon, isPrefixOf_refl] at hfalse
    exact absurd rfl hfalse

theorem rebuild_idem (className : List Char) (render : List (List String))
    (wb : List Sheet) :
    rebuildClassSheet className render (rebuildClassSheet className render wb)
      = rebuildClassSheet className render wb := by
  cases hw : wb.find? (fun t => (cleanName className).isPrefixOf t.name) with
  | some s =>
    have honce := rebuild_of_find_some className render wb s hw
    have hfind : (rebuildClassSheet className render wb).find?
        (fun t => (cleanName className).isPrefixOf t.name)
        = some { s with rows := render } := by
      rw [honce, find?_overwrite, hw]
      simp
    rw [rebuild_of_find_some className render _ _ hfind, honce]
    simp only [List.map_map]
    refine List.map_congr_left (fun t _ => ?_)
    simp only [Function.comp]
    by_cases h : (t.name == s.name) = true <;> simp [h]
  | none =>
    have honce := rebuild_of_find_none className render wb hw
    obtain ⟨hname, hpref⟩ := getSafeSheetName_no_match wb className hw
    have hfind : (rebuildClassSheet className render wb).find?
        (fun t => (cleanName className).isPrefixOf t.name)
        = some ⟨getSafeSheetName (wb.map Sheet.name) className, render⟩ := by
      rw [honce, List.find?_append, hw, Option.none_or, List.find?_cons, hname]
      simp [hpref]
    rw [rebuild_of_find_some className render _ _ hfind, honce, List.map_append]
    congr 1
    · refine (List.map_congr_left (fun t ht => ?_)).trans (List.map_id wb)
      have hne := no_sheet_named_base wb className hw t ht
      simp [hne]
    · simp

/-- C7: rebuilding a class's sheet a second time for the same date and
database state reuses the sheet found by its sanitized-name prefix —
the sheet population is unchanged, so no second sheet sharing the prefix
appears — and since all rows are cleared before writing, the matched
sheet's content after the second rebuild is exactly one clean render. -/
theorem C7_sheet_identity_stability (className : List Char)
    (render : List (List String)) (wb : List Sheet) :
    rebuildClassSheet className render (rebuildClassSheet className render wb)
      = rebuildClassSheet className render wb
    ∧ ((rebuildClassSheet className render
          (rebuildClassSheet className render wb)).filter
        (fun t => (cleanName className).isPrefixOf t.name)).length
      = ((rebuildClassSheet className render wb).filter
          (fun t => (cleanName className).isPrefixOf t.name)).length
    ∧ ∃ s, (rebuildClassSheet className render
          (rebuildClassSheet className render wb)).find?
        (fun t => (cleanName className).isPrefixOf t.name) = some s
      ∧ s.rows = render := by
  refine ⟨rebuild_idem className render wb, ?_, ?_⟩
  · rw [rebuild_idem]
  · rw [rebuild_idem]
    exact rebuild_find className render _

/-! ## Claim C2: resubmission idempotence of the attendance upsert -/

theorem submitAttendance_cons (cid tid : Nat) (date : String) (period : Nat)
    (s : Nat) (rest : List Nat) (form : Nat → Option String) (now : String)
    (db : AttDB) :
    submitAttendance cid tid date period (s :: rest) form now db
      = submitAttendance cid tid date period rest form now
          (submitOne cid tid date period now db s (stOf form s)) := rfl

theorem keyMatch_eraseUpd (sid : Nat) (date : String) (period : Nat)
    (r : AttRecord) : keyMatch sid date period (eraseUpd r)
      = keyMatch sid date period r := rfl

theorem WF_update_map (db : AttDB) (f : AttRecord → AttRecord)
    (hf : ∀ r, (f r).id = r.id) (hwf : WF db) :
    WF { db with recs := db.recs.map f } := by
  obtain ⟨hnd, hlt⟩ := hwf
  constructor
  · show ((db.recs.map f).map AttRecord.id).Nodup
    rw [List.map_map]
    have heq : db.recs.map (AttRecord.id ∘ f) = db.recs.map AttRecord.id :=
      List.map_congr_left (fun x _ => hf x)
    rw [heq]
    exact hnd
  · intro r hr
    rw [show ({ db with recs := db.recs.map f } : AttDB).recs = db.recs.map f
      from rfl, List.mem_map] at hr
    obtain ⟨x, hx, rfl⟩ := hr
    show (f x).id < db.nextId
    rw [hf]
    exact hlt x hx

theorem submitOne_found (cid tid : Nat) (date : String) (period : Nat)
    (now : String) (db : AttDB) (sid : Nat) (status : String) (ex : AttRecord)
    (h : db.recs.find? (keyMatch sid date period) = some ex) :
    submitOne cid tid date period now db sid status
      = if (ex.status == "absent" && status == "present") = true then
          { db with recs := db.recs.map (fun r =>
              if r.id == ex.id then
                { r with status := status, classId := some cid,
                         teacherId := some tid, remark := none,
                         updatedAt := now }
              else r) }
        else
          { db with recs := db.recs.map (fun r =>
              if r.id == ex.id then
                { r with status := status, classId := some cid,
                         teacherId := some tid, updatedAt := now }
              else r) } := by
  unfold submitOne
  rw [h]

theorem submitOne_not_found (cid tid : Nat) (date : String) (period : Nat)
    (now : String) (db : AttDB) (sid : Nat) (status : String)
    (h : db.recs.find? (keyMatch sid date period) = none) :
    submitOne cid tid date period now db sid status
      = { nextId := db.nextId + 1,
          recs := db.recs ++
            [⟨db.nextId, sid, date, period, status, some cid, some tid, none,
              none, now, now⟩] } := by
  unfold submitOne
  rw [h]

theorem WF_submitOne (cid tid : Nat) (date : String) (period : Nat)
    (now : String) (db : AttDB) (sid : Nat) (status : String) (hwf : WF db) :
    WF (submitOne cid tid date period now db sid status) := by
  cases hfind : db.recs.find? (keyMatch sid date period) with
  | some ex =>
    rw [submitOne_found cid tid date period now db sid status ex hfind]
    split
    · exact WF_update_map db _ (fun r => by split <;> rfl) hwf
    · exact WF_update_map db _ (fun r => by split <;> rfl) hwf
  | none =>
    rw [submitOne_not_found cid tid date period now db sid status hfind]
    constructor
    · show ((db.recs ++ [_]).map AttRecord.id).Nodup
      rw [List.map_append, List.nodup_append]
      refine ⟨hwf.1, by simp, ?_⟩
      intro a ha hb
      simp only [List.map_cons, List.map_nil, List.mem_singleton] at hb
      rw [List.mem_map] at ha
      obtain ⟨x, hx, hxe⟩ := ha
      have := hwf.2 x hx
      omega
    · intro r hr
      rcases List.mem_append.1 hr with h | h
      · exact Nat.lt_trans (hwf.2 r h) (Nat.lt_succ_self _)
      · rw [List.mem_singleton] at h
        subst h
        exact Nat.lt_succ_self _

theorem WF_submitAttendance (cid tid : Nat) (date : String) (period : Nat)
    (form : Nat → Option String) (now : String) :
    ∀ (students : List Nat) (db : AttDB), WF db →
      WF (submitAttendance cid tid date period students form now db) := by
  intro students
  induction students with
  | nil => exact fun db hwf => hwf
  | cons s rest ih =>
    intro db hwf
    rw [submitAttendance_cons]
    exact ih _ (WF_submitOne cid tid date period now db s (stOf form s) hwf)

theorem persisted_establish (cid tid : Nat) (date : String) (period : Nat)
    (now : String) (db : AttDB) (sid : Nat) (status : String) :
    Persisted cid tid date period status
      (submitOne cid tid date period now db sid status) sid := by
  cases hfind : db.recs.find? (keyMatch sid date period) with
  | some ex =>
    rw [submitOne_found cid tid date period now db sid status ex hfind]
    split
    · refine ⟨{ ex with
                status := status, classId := some cid, teacherId := some tid,
                remark := none, updatedAt := now }, ?_, rfl, rfl, rfl⟩
      show (db.recs.map _).find? (keyMatch sid date period) = some _
      rw [find?_map_of_pred _ _ _
        (fun x => by by_cases h : (x.id == ex.id) = true <;> simp [h, keyMatch]),
        hfind]
      simp
    · refine ⟨{ ex with
                status := status, classId := some cid, teacherId := some tid,
                updatedAt := now }, ?_, rfl, rfl, rfl⟩
      show (db.recs.map _).find? (keyMatch sid date period) = some _
      rw [find?_map_of_pred _ _ _
        (fun x => by by_cases h : (x.id == ex.id) = true <;> simp [h, keyMatch]),
        hfind]
      simp
  | none =>
    rw [submitOne_not_found cid tid date period now db sid status hfind]
    refine ⟨⟨db.nextId, sid, date, period, status, some cid, some tid, none,
             none, now, now⟩, ?_, rfl, rfl, rfl⟩
    show (db.recs ++ [_]).find? (keyMatch sid date period) = some _
    rw [List.find?_append, hfind, Option.none_or, List.find?_cons]
    have hk : keyMatch sid date period
        ⟨db.nextId, sid, date, period, status, some cid, some tid, none, none,
         now, now⟩ = true := by simp [keyMatch]
    simp [hk]

theorem persisted_preserve_one (cid tid : Nat) (date : String) (period : Nat)
    (now st st2 : String) (db : AttDB) (sid s2 : Nat)
    (hnd : (db.recs.map AttRecord.id).Nodup)
    (hp : Persisted cid tid date period st db sid)
    (heq : sid = s2 → st2 = st) :
    Persisted cid tid date period st
      (submitOne cid tid date period now db s2 st2) sid := by
  obtain ⟨r, hr, hst, hcl, hte⟩ := hp
  have hrmem : r ∈ db.recs := List.mem_of_find?_eq_some hr
  have hkeyr : keyMatch sid date period r = true := List.find?_some hr
  cases hfind : db.recs.find? (keyMatch s2 date period) with
  | none =>
    rw [submitOne_not_found cid tid date period now db s2 st2 hfind]
    refine ⟨r, ?_, hst, hcl, hte⟩
    show (db.recs ++ [_]).find? (keyMatch sid date period) = some r
    rw [List.find?_append, hr]
    rfl
  | some ex2 =>
    have hex2mem : ex2 ∈ db.recs := List.mem_of_find?_eq_some hfind
    have hkey2 : keyMatch s2 date period ex2 = true := List.find?_some hfind
    rw [submitOne_found cid tid date period now db s2 st2 ex2 hfind]
    split
    · by_cases hid : (r.id == ex2.id) = true
      · have hre : r = ex2 := List.inj_on_of_nodup_map hnd hrmem hex2mem (eq_of_beq hid)
        have hsid : sid = s2 := by
          simp only [keyMatch, Bool.and_eq_true, beq_iff_eq] at hkeyr hkey2
          rw [← hkeyr.1.1, hre, hkey2.1.1]
        refine ⟨{ r with
                  status := st2, classId := some cid, teacherId := some tid,
                  remark := none, updatedAt := now }, ?_,
                heq hsid, rfl, rfl⟩
        show (db.recs.map _).find? (keyMatch sid date period) = some _
        rw [find?_map_of_pred _ _ _
          (fun x => by by_cases h : (x.id == ex2.id) = true <;> simp [h, keyMatch]),
          hr]
        have hideq : r.id = ex2.id := eq_of_beq hid
        simp [hideq]
      · refine ⟨r, ?_, hst, hcl, hte⟩
        show (db.recs.map _).find? (keyMatch sid date period) = some r
        rw [find?_map_of_pred _ _ _
          (fun x => by by_cases h : (x.id == ex2.id) = true <;> simp [h, keyMatch]),
          hr]
        simp only [Bool.not_eq_true] at hid
        simp [hid]
        intro hcon
        rw [hcon] at hid
        simp at hid
    · by_cases hid : (r.id == ex2.id) = true
      · have hre : r = ex2 := List.inj_on_of_nodup_map hnd hrmem hex2mem (eq_of_beq hid)
        have hsid : sid = s2 := by
          simp only [keyMatch, Bool.and_eq_true, beq_iff_eq] at hkeyr hkey2
          rw [← hkeyr.1.1, hre, hkey2.1.1]
        refine ⟨{ r with
                  status := st2, classId := some cid, teacherId := some tid,
                  updatedAt := now }, ?_, heq hsid, rfl, rfl⟩
        show (db.recs.map _).find? (keyMatch sid date period) = some _
        rw [find?_map_of_pred _ _ _
          (fun x => by by_cases h : (x.id == ex2.id) = true <;> simp [h, keyMatch]),
          hr]
        have hideq : r.id = ex2.id := eq_of_beq hid
        simp [hideq]
      · refine ⟨r, ?_, hst, hcl, hte⟩
        show (db.recs.map _).find? (keyMatch sid date period) = some r
        rw [find?_map_of_pred _ _ _
          (fun x => by by_cases h : (x.id == ex2.id) = true <;> simp [h, keyMatch]),
          hr]
        simp only [Bool.not_eq_true] at hid
        simp [hid]
        intro hcon
        rw [hcon] at hid
        simp at hid

theorem persisted_fold (cid tid : Nat) (date : String) (period : Nat)
    (now : String) (form : Nat → Option String) (sid : Nat) :
    ∀ (students : List Nat) (db : AttDB), WF db →
      Persisted cid tid date period (stOf form sid) db sid →
      Persisted cid tid date period (stOf form sid)
        (submitAttendance cid tid date period students form now db) sid := by
  intro students
  induction students with
  | nil => exact fun db _ hp => hp
  | cons s2 rest ih =>
    intro db hwf hp
    rw [submitAttendance_cons]
    exact ih _ (WF_submitOne cid tid date period now db s2 (stOf form s2) hwf)
      (persisted_preserve_one cid tid date period now (stOf form sid)
        (stOf form s2) db sid s2 hwf.1 hp (fun he => by rw [he]))

theorem pass1_persisted (cid tid : Nat) (date : String) (period : Nat)
    (now : String) (form : Nat → Option String) (sid : Nat) :
    ∀ (students : List Nat) (db : AttDB), WF db → sid ∈ students →
      Persisted cid tid date period (stOf form sid)
        (submitAttendance cid tid date period students form now db) sid := by
  intro students
  induction students with
  | nil => intro db _ h; cases h
  | cons s2 rest ih =>
    intro db hwf hmem
    rw [submitAttendance_cons]
    rcases List.mem_cons.1 hmem with he | hm
    · subst he
      exact persisted_fold cid tid date period now form sid rest _
        (WF_submitOne cid tid date period now db sid (stOf form sid) hwf)
        (persisted_establish cid tid date period now db sid (stOf form sid))
    · exact ih _ (WF_submitOne cid tid date period now db s2 (stOf form s2) hwf) hm

theorem persisted_transport (cid tid : Nat) (date : String) (period : Nat)
    (st : String) (sid : Nat) (db1 db2 : AttDB)
    (he : db2.recs.map eraseUpd = db1.recs.map eraseUpd)
    (hp : Persisted cid tid date period st db1 sid) :
    Persisted cid tid date period st db2 sid := by
  obtain ⟨r1, hr1, hst, hcl, hte⟩ := hp
  have h2 : (db2.recs.find? (keyMatch sid date period)).map eraseUpd
      = (db1.recs.find? (keyMatch sid date period)).map eraseUpd := by
    rw [← find?_map_of_pred db2.recs (keyMatch sid date period) eraseUpd
          (fun r => rfl),
        ← find?_map_of_pred db1.recs (keyMatch sid date period) eraseUpd
          (fun r => rfl), he]
  rw [hr1] at h2
  cases hf2 : db2.recs.find? (keyMatch sid date period) with
  | none =>
    rw [hf2] at h2
    simp at h2
  | some r2 =>
    rw [hf2] at h2
    have h3 : eraseUpd r2 = eraseUpd r1 := by injection h2
    refine ⟨r2, hf2, ?_, ?_, ?_⟩
    · exact (congrArg AttRecord.status h3).trans hst
    · exact (congrArg AttRecord.classId h3).trans hcl
    · exact (congrArg AttRecord.teacherId h3).trans hte

theorem WF_transport (db1 db2 : AttDB) (hn : db2.nextId = db1.nextId)
    (he : db2.recs.map eraseUpd = db1.recs.map eraseUpd) (hwf : WF db1) :
    WF db2 := by
  have hid : db2.recs.map AttRecord.id = db1.recs.map AttRecord.id :=
    calc db2.recs.map AttRecord.id
        = (db2.recs.map eraseUpd).map AttRecord.id := by
          rw [List.map_map]
          exact List.map_congr_left (fun r _ => rfl)
      _ = (db1.recs.map eraseUpd).map AttRecord.id := by rw [he]
      _ = db1.recs.map AttRecord.id := by
          rw [List.map_map]
          exact List.map_congr_left (fun r _ => rfl)
  constructor
  · rw [hid]
    exact hwf.1
  · intro r hr
    have hmm : r.id ∈ db2.recs.map AttRecord.id := List.mem_map_of_mem _ hr
    rw [hid, List.mem_map] at hmm
    obtain ⟨x, hx, hxe⟩ := hmm
    rw [hn, ← hxe]
    exact hwf.2 x hx

theorem submitOne_noop (cid tid : Nat) (date : String) (period : Nat)
    (now st : String) (db : AttDB) (sid : Nat)
    (hnd : (db.recs.map AttRecord.id).Nodup)
    (hp : Persisted cid tid date period st db sid) :
    (submitOne cid tid date period now db sid st).nextId = db.nextId
    ∧ (submitOne cid tid date period now db sid st).recs.map eraseUpd
      = db.recs.map eraseUpd := by
  obtain ⟨r, hr, hst, hcl, hte⟩ := hp
  have hrmem : r ∈ db.recs := List.mem_of_find?_eq_some hr
  have hcond : (r.status == "absent" && st == "present") = false := by
    rw [hst]
    by_cases h : st = "absent" <;> simp [h]
  rw [submitOne_found cid tid date period now db sid st r hr,
    if_neg (by rw [hcond]; exact Bool.false_ne_true)]
  refine ⟨rfl, ?_⟩
  show (db.recs.map _).map eraseUpd = db.recs.map eraseUpd
  rw [List.map_map]
  refine List.map_congr_left (fun x hx => ?_)
  simp only [Function.comp]
  by_cases hid : (x.id == r.id) = true
  · have hxr : x = r := List.inj_on_of_nodup_map hnd hx hrmem (eq_of_beq hid)
    subst hxr
    rw [if_pos hid]
    show eraseUpd { x with
                    status := st, classId := some cid, teacherId := some tid,
                    updatedAt := now } = eraseUpd x
    unfold eraseUpd
    rw [← hst, ← hcl, ← hte]
  · rw [if_neg hid]

theorem pass2_noop (cid tid : Nat) (date : String) (period : Nat)
    (now2 : String) (form : Nat → Option String) :
    ∀ (students : List Nat) (db1 db2 : AttDB), WF db1 →
      db2.nextId = db1.nextId →
      db2.recs.map eraseUpd = db1.recs.map eraseUpd →
      (∀ s ∈ students, Persisted cid tid date period (stOf form s) db1 s) →
      (submitAttendance cid tid date period students form now2 db2).nextId
        = db1.nextId
      ∧ (submitAttendance cid tid date period students form now2 db2).recs.map
          eraseUpd = db1.recs.map eraseUpd := by
  intro students
  induction students with
  | nil => exact fun db1 db2 _ hn he _ => ⟨hn, he⟩
  | cons s rest ih =>
    intro db1 db2 hwf1 hn he hps
    rw [submitAttendance_cons]
    have hwf2 : WF db2 := WF_transport db1 db2 hn he hwf1
    have hp2 : Persisted cid tid date period (stOf form s) db2 s :=
      persisted_transport cid tid date period (stOf form s) s db1 db2 he
        (hps s (List.mem_cons_self s rest))
    have hstep := submitOne_noop cid tid date period now2 (stOf form s) db2 s
      hwf2.1 hp2
    exact ih db1 _ hwf1 (hstep.1.trans hn) (hstep.2.trans he)
      (fun x hx => hps x (List.mem_cons_of_mem s hx))

/-- C2: resubmitting the same status map for the same class, date and
period (same teacher) leaves the stored table identical up to the
`updated_at` column: same autoincrement counter, the same records with the
same status and remark, and no additional record for any
(student, date, period) triple. -/
theorem C2_resubmission_idempotent (cid tid : Nat) (date : String)
    (period : Nat) (students : List Nat) (form : Nat → Option String)
    (now1 now2 : String) (db : AttDB) (hwf : WF db) :
    (submitAttendance cid tid date period students form now2
        (submitAttendance cid tid date period students form now1 db)).nextId
      = (submitAttendance cid tid date period students form now1 db).nextId
    ∧ (submitAttendance cid tid date period students form now2
        (submitAttendance cid tid date period students form now1 db)).recs.map
          eraseUpd
      = (submitAttendance cid tid date period students form now1 db).recs.map
          eraseUpd
    ∧ (submitAttendance cid tid date period students form now2
        (submitAttendance cid tid date period students form now1 db)).recs.length
      = (submitAttendance cid tid date period students form now1 db).recs.length
    := by
  have h := pass2_noop cid tid date period now2 form students
    (submitAttendance cid tid date period students form now1 db)
    (submitAttendance cid tid date period students form now1 db)
    (WF_submitAttendance cid tid date period form now1 students db hwf) rfl rfl
    (fun s hs => pass1_persisted cid tid date period now1 form s students db hwf hs)
  refine ⟨h.1, h.2, ?_⟩
  have hlen := congrArg List.length h.2
  simpa using hlen

/-- Witness for C2: resubmitting an identical one-student map over an
empty table leaves one record whose non-timestamp fields are unchanged. -/
theorem C2_resubmission_idempotent_witness :
    (submitAttendance 7 9 "2025-01-06" 1 [5] (fun _ => some "absent") "t2"
        (submitAttendance 7 9 "2025-01-06" 1 [5] (fun _ => some "absent") "t1"
          ⟨1, []⟩)).nextId
      = (submitAttendance 7 9 "2025-01-06" 1 [5] (fun _ => some "absent") "t1"
          ⟨1, []⟩).nextId
    ∧ (submitAttendance 7 9 "2025-01-06" 1 [5] (fun _ => some "absent") "t2"
        (submitAttendance 7 9 "2025-01-06" 1 [5] (fun _ => some "absent") "t1"
          ⟨1, []⟩)).recs.map eraseUpd
      = (submitAttendance 7 9 "2025-01-06" 1 [5] (fun _ => some "absent") "t1"
          ⟨1, []⟩).recs.map eraseUpd :=
  ⟨(C2_resubmission_idempotent 7 9 "2025-01-06" 1 [5] (fun _ => some "absent")
      "t1" "t2" ⟨1, []⟩ ⟨List.nodup_nil, by intro r hr; cases hr⟩).1,
   (C2_resubmission_idempotent 7 9 "2025-01-06" 1 [5] (fun _ => some "absent")
      "t1" "t2" ⟨1, []⟩ ⟨List.nodup_nil, by intro r hr; cases hr⟩).2.1⟩

/-! ## Claim C9: the period used when the form omits one -/

/-- C9 counterexample: with a schedule whose resolver period is 3 at the
submission time, a POST with an omitted period field writes the record
under period 1, not under the resolver's period 3. -/
theorem C9_counterexample :
    getCurrentPeriodForClass [⟨0, 3, some "09:00", some "09:45", none⟩] 0
        (some 7) (9 * 60 + 10) = some 3
    ∧ (teacherPost 7 9 "2025-01-06" none [5] (fun _ => some "present") "t1"
        ⟨1, []⟩).recs.map AttRecord.period = [1]
    ∧ ¬ (teacherPost 7 9 "2025-01-06" none [5] (fun _ => some "present") "t1"
        ⟨1, []⟩).recs.map AttRecord.period = [3] := by
  refine ⟨?_, ?_, ?_⟩ <;> decide

/-- C9 amended: when the period field of the submission is omitted or
empty, the handler substitutes the constant `1` — not the §4.1 resolver's
result — and every submitted student's record is stored under period 1
with the submitted status. -/
theorem C9_default_period (cid tid : Nat) (date : String)
    (students : List Nat) (form : Nat → Option String) (now : String)
    (db : AttDB) (sid : Nat) (hwf : WF db) (hmem : sid ∈ students) :
    effectivePeriod none = 1
    ∧ ∃ r, (teacherPost cid tid date none students form now db).recs.find?
          (keyMatch sid date 1) = some r ∧ r.status = stOf form sid := by
  refine ⟨rfl, ?_⟩
  obtain ⟨r, hr, hst, _, _⟩ :=
    pass1_persisted cid tid date 1 now form sid students db hwf hmem
  exact ⟨r, hr, hst⟩

/-- Witness for C9: one student submitted with no period field lands under
period 1. -/
theorem C9_default_period_witness :
    effectivePeriod none = 1
    ∧ ∃ r, (teacherPost 7 9 "2025-01-06" none [5] (fun _ => some "present")
          "t1" ⟨1, []⟩).recs.find? (keyMatch 5 "2025-01-06" 1) = some r
        ∧ r.status = stOf (fun _ => some "present") 5 :=
  C9_default_period 7 9 "2025-01-06" [5] (fun _ => some "present") "t1" ⟨1, []⟩
    5 ⟨List.nodup_nil, by intro r hr; cases hr⟩ (by decide)

end AttSchool
